import Mathlib

/-!
# adonis-newrelic: the provider's wrappers

A shallow embedding of `src/providers/Provider.js`.

* JavaScript values are the type `Val`; objects live in a `Heap` and are named
  by references, so that reference equality is equality of references.
* A function value that the provider creates is a constructor of `Val`
  (`controllerWrapper`, `middlewareWrapper`); what such a closure does when it
  is called is the Lean function of the same source name with suffix `Body`.
* Calling a function value that the provider did not create (the wrapped
  originals, `request.url`, the agent's recorder) is the parameter `Runtime`.
* The calls a wrapper of the dispatcher makes to the router and to the agent
  are returned as a list of `Event`s.
-/

namespace NewRelicProvider

/-! ## Values, objects, heap -/

abbrev Ref := Nat

/-- JavaScript values. `native` is a function defined outside the provider,
`cls` a class (itself a function) whose `prototype` object is at the given
reference, `error` a thrown `Error` object given by its class name and message.
The last two constructors are the closures made by `wrapControllerMethod` and
`wrapMiddlewareHandler`, with the variables they capture. -/
inductive Val where
  | undefined : Val
  | null : Val
  | str (s : String) : Val
  | num (n : Nat) : Val
  | obj (r : Ref) : Val
  | native (id : Nat) : Val
  | cls (prototype : Ref) : Val
  | error (name : String) (message : String) : Val
  | controllerWrapper (controllerName : String) (fnName : String) (originalFn : Val) : Val
  | middlewareWrapper (middlewareName : String) (handleFn : Val) : Val
  deriving DecidableEq, Repr

/-- The test `typeof v === 'function'`, also `shim.isFunction`. -/
def Val.isFunction : Val → Bool
  | .native _ => true
  | .cls _ => true
  | .controllerWrapper _ _ _ => true
  | .middlewareWrapper _ _ => true
  | _ => false

/-- The test `shim.isString`. -/
def Val.isString : Val → Bool
  | .str _ => true
  | _ => false

/-- An object: its own data properties (latest definition first) and its
prototype. Accessor properties are outside the model. -/
structure Obj where
  own : List (String × Val)
  proto : Option Ref
  deriving DecidableEq, Repr

/-- The heap: every reference below `next` is allocated. -/
structure Heap where
  objs : Ref → Obj
  next : Nat

def Heap.get (h : Heap) (r : Ref) : Obj := h.objs r

/-- Allocation of a new object; returns its reference. -/
def Heap.alloc (h : Heap) (o : Obj) : Ref × Heap :=
  (h.next, { objs := fun r => if r = h.next then o else h.objs r, next := h.next + 1 })

/-- Own property lookup, `Object.getOwnPropertyDescriptor(obj, name)` restricted
to data properties: the value, when the property exists. -/
def Obj.getOwn (o : Obj) (name : String) : Option Val :=
  (o.own.find? (fun p => p.1 == name)).map (fun p => p.2)

/-- Assignment `obj[name] = v` on an object: defines or overwrites the own
property `name`. -/
def Obj.set (o : Obj) (name : String) (v : Val) : Obj :=
  { o with own := (name, v) :: o.own.filter (fun p => !(p.1 == name)) }

/-- Assignment `r[name] = v`. -/
def Heap.setProp (h : Heap) (r : Ref) (name : String) (v : Val) : Heap :=
  { h with objs := fun x => if x = r then (h.objs r).set name v else h.objs x }

/-- The prototype chain that starts at `p`: `p`, its prototype, and so on up to
`null`. Objects are allocated after their prototypes, hence `fuel` links
suffice for a chain that starts below `fuel` (see `protoChain_complete`). -/
def protoChain (h : Heap) : Nat → Option Ref → List Ref
  | 0, _ => []
  | _, none => []
  | fuel + 1, some p => p :: protoChain h fuel (h.get p).proto

/-- Property read `r[name]`: the own property or else the first one found along
the prototype chain, `undefined` when there is none. -/
def Heap.getProp (h : Heap) (r : Ref) (name : String) : Val :=
  (((r :: protoChain h r (h.get r).proto).filterMap
      (fun x => (h.get x).getOwn name)).head?).getD Val.undefined

/-- A factory held by the container. `original` is a factory registered by the
framework or the application; the other two are the arrow functions the
provider registers: `() => instance` and `() => new Middleware()`. -/
inductive Closure where
  | original (id : Nat) : Closure
  | constant (v : Val) : Closure
  | construct (c : Val) : Closure
  deriving DecidableEq, Repr

/-- Modelled from the spec: the binding record of the dependency-injection
container (section 3: namespace, isSingleton, cachedInstance, factory), which
is not part of the source, under the names the container gives its fields:
`closure`, `singleton` and, for the cached instance, `cachedValue`. -/
structure Binding where
  closure : Closure
  singleton : Bool
  cachedValue : Val
  deriving DecidableEq, Repr

/-- The read `binding.cacheValue` of the source (in `wrapMiddleware`): the
record has no property of that name, its cache being `cachedValue`, so the
read gives `undefined`. -/
def Binding.cacheValue (_binding : Binding) : Val := .undefined

/-- The state a call runs in: the heap and the container's bindings. -/
structure World where
  heap : Heap
  bindings : String → Option Binding

/-- Outcome of a call: the returned value, or the thrown one. -/
abbrev Outcome := Except Val Val

/-- What a function does when called with a receiver and arguments. -/
abbrev Behaviour := Val → List Val → World → Outcome × World

/-- The engine's call of a function value that the provider did not build. -/
structure Runtime where
  call : Val → Behaviour

/-- Property read `v.name` on any value; on `undefined` and `null` it throws
the engine's `TypeError`. Properties of primitives and of functions are not
modelled, apart from the `prototype` of a class. -/
def getMember (h : Heap) (v : Val) (name : String) : Outcome :=
  match v with
  | .undefined => .error (.error "TypeError" ("Cannot read property " ++ name ++ " of undefined"))
  | .null => .error (.error "TypeError" ("Cannot read property " ++ name ++ " of null"))
  | .obj r => .ok (h.getProp r name)
  | .cls p => .ok (if name == "prototype" then .obj p else .undefined)
  | _ => .ok .undefined

/-- The method call `recv.name(args)`. -/
def callMethod (rt : Runtime) (recv : Val) (name : String) (args : List Val) (w : World) :
    Outcome × World :=
  match getMember w.heap recv name with
  | .error e => (.error e, w)
  | .ok f =>
    if f.isFunction then rt.call f recv args w
    else (.error (.error "TypeError" (name ++ " is not a function")), w)

/-! ## The agent's shim -/

/-- The span descriptor given to `shim.recordMiddleware`. The extractors `req`,
`res`, `params` of the source are fixed per kind of descriptor: they read the
fields of `args[0]`, or (in `handle`) return the captured `req` and `res`. -/
structure Spec where
  type : String
  name : Val
  route : Val
  fromFirstArg : Bool
  promise : Bool
  deriving DecidableEq, Repr

/-- The agent's `shim.recordMiddleware(fn, spec)`: returns a function value, or
throws. -/
structure Shim where
  recordMiddleware : Val → Spec → Outcome

/-! ## wrapControllerMethod, wrapMiddlewareHandler -/

/-- The source's `wrapControllerMethod(shim, controllerName, fnName, originalFn)`:
the closure it returns. -/
def wrapControllerMethod (controllerName fnName : String) (originalFn : Val) : Val :=
  .controllerWrapper controllerName fnName originalFn

/-- The instrumentation step common to both wrappers, the part of
`function ({ request }) { ... }` before the final `.apply`: destructure the
first argument, call `request.url()`, build the descriptor and hand the
original to `shim.recordMiddleware`. It yields the function the agent returns. -/
def instrument (rt : Runtime) (shim : Shim) (type : String) (name : String) (fn : Val)
    (args : List Val) (w : World) : Outcome × World :=
  match getMember w.heap (args.headD .undefined) "request" with
  | .error e => (.error e, w)
  | .ok request =>
    match callMethod rt request "url" [] w with
    | (.error e, w1) => (.error e, w1)
    | (.ok route, w1) =>
      (shim.recordMiddleware fn
        { type := type, name := .str name, route := route, fromFirstArg := true,
          promise := true }, w1)

/-- The common body of both wrappers: the instrumentation step, then
`.apply(this, args)` on what the agent returned. -/
def wrapperBody (rt : Runtime) (shim : Shim) (type : String) (name : String) (fn : Val) :
    Behaviour := fun this args w =>
  match instrument rt shim type name fn args w with
  | (.error e, w1) => (.error e, w1)
  | (.ok recorded, w1) => rt.call recorded this args w1

/-- Body of the closure returned by `wrapControllerMethod`. -/
def wrapControllerMethodBody (rt : Runtime) (shim : Shim) (controllerName fnName : String)
    (originalFn : Val) : Behaviour :=
  wrapperBody rt shim "APPLICATION" (controllerName ++ "." ++ fnName) originalFn

/-- The JavaScript `s.split(sep)` for a one-character separator, on characters. -/
def splitChars (sep : Char) : List Char → List (List Char)
  | [] => [[]]
  | c :: cs =>
    if c = sep then [] :: splitChars sep cs
    else
      match splitChars sep cs with
      | [] => [[c]]
      | seg :: rest => (c :: seg) :: rest

/-- The JavaScript `s.split(sep)` for a one-character separator. -/
def jsSplit (sep : Char) (s : String) : List String :=
  (splitChars sep s.data).map String.mk

/-- The expression `namespace.split('/').slice(-1)[0]`. -/
def middlewareNameOf (namespace_ : String) : String :=
  ((jsSplit '/' namespace_).getLast?).getD ""

/-- The source's `wrapMiddlewareHandler(shim, namespace, handleFn)`: the closure
it returns. -/
def wrapMiddlewareHandler (namespace_ : String) (handleFn : Val) : Val :=
  .middlewareWrapper (middlewareNameOf namespace_) handleFn

/-- Body of the closure returned by `wrapMiddlewareHandler`. -/
def wrapMiddlewareHandlerBody (rt : Runtime) (shim : Shim) (middlewareName : String)
    (handleFn : Val) : Behaviour :=
  wrapperBody rt shim "MIDDLEWARE" (middlewareName ++ ".handle") handleFn

/-! ## The request dispatcher: the wrapper of `Server.prototype.handle` -/

/-- A call the dispatcher's wrapper makes to the router or to the agent. -/
inductive Event where
  | routeMatch (url : String) (method : String) (host : String) : Event
  | setControllerName (controller : Val) (action : Val) : Event
  | recordMiddleware (fn : Val) (spec : Spec) : Event
  deriving DecidableEq, Repr

/-- The request of the context, as read through `request.url()`,
`request.method()` and `request.hostname()`. -/
structure Request where
  url : String
  method : String
  hostname : String
  deriving DecidableEq, Repr

/-- The serialised route, `match.route.toJSON()`: its `name` and `handler`. -/
structure RouteJSON where
  name : Val
  handler : Val
  deriving DecidableEq, Repr

/-- The route subsystem `this.Route`: its `match` operation (`none` for a falsy
result) and the function value `this.Route.match` itself. -/
structure RouteManager where
  matchRoute : String → String → String → Option RouteJSON
  matchFn : Val

/-- The server a request is dispatched on: the receiver `this`, the request
that `new this.Context(req, res)` exposes, and `this.Route` when present. -/
structure Server where
  self : Val
  Context : Val → Val → Request
  Route : Option RouteManager

/-- The constant `excludeVerbs`. -/
def excludeVerbs : List String := ["OPTIONS", "TRACE"]

/-- The destructuring `const [a, b] = handler.split('.')`. -/
def splitHandler (handler : String) : Val × Val :=
  let parts := jsSplit '.' handler
  ((parts.head?.map Val.str).getD .undefined, (parts.tail.head?.map Val.str).getD .undefined)

/-- The end of the wrapper of `handle`, after the verb test: hand
`this.Route.match` to `shim.recordMiddleware` with a ROUTER descriptor, then
apply the original to the receiver and the arguments. -/
def handleTail (shim : Shim) (originalFn : Behaviour) (server : Server) (request : Request)
    (args : List Val) (events : List Event) (w : World) : List Event × (Outcome × World) :=
  match server.Route with
  | none =>
    (events, (.error (.error "TypeError" "Cannot read property match of undefined"), w))
  | some route =>
    let spec : Spec :=
      { type := "ROUTER", name := .undefined, route := .str request.url,
        fromFirstArg := false, promise := false }
    match shim.recordMiddleware route.matchFn spec with
    | .error e => (events ++ [.recordMiddleware route.matchFn spec], (.error e, w))
    | .ok _ =>
      (events ++ [.recordMiddleware route.matchFn spec], originalFn server.self args w)

/-- The function that replaces `Server.prototype.handle`, called on `server`
with the argument list `args` (`req` is `args[0]`, `res` is `args[1]`): the
calls it makes to the router and the agent, and its outcome. -/
def handleWrapper (shim : Shim) (originalFn : Behaviour) (server : Server) (args : List Val)
    (w : World) : List Event × (Outcome × World) :=
  let req := args.headD .undefined
  let res := args.tail.headD .undefined
  let request := server.Context req res
  if !excludeVerbs.contains request.method then
    match server.Route with
    | none => ([], originalFn server.self args w)
    | some route =>
      let ev := [Event.routeMatch request.url request.method request.hostname]
      match route.matchRoute request.url request.method request.hostname with
      | none => (ev, originalFn server.self args w)
      | some json =>
        match json.handler with
        | .str handler =>
          let ca := splitHandler handler
          handleTail shim originalFn server request args
            (ev ++ [.setControllerName ca.1 ca.2]) w
        | handler =>
          if handler.isFunction then
            handleTail shim originalFn server request args
              (ev ++ [.setControllerName json.name (.str request.method)]) w
          else
            handleTail shim originalFn server request args ev w
  else
    handleTail shim originalFn server request args [] w

/-! ## The container and the resolver (collaborators) -/

/-- The collaborators of the provider at registration time: what the factories
registered by others do, which class the container autoloads for a namespace
that has no binding, and the resolver's `translate` for controllers. -/
structure Collab where
  factories : Nat → World → Outcome × World
  autoload : String → Option Val
  translate : String → String

/-- JavaScript truthiness, as used by `||`. -/
def Val.truthy : Val → Bool
  | .undefined => false
  | .null => false
  | .str s => s != ""
  | .num n => n != 0
  | _ => true

/-- The expression `new c()`: a fresh object whose prototype is the class's
`prototype`; constructors' bodies are not modelled. -/
def construct (c : Val) (w : World) : Outcome × World :=
  match c with
  | .cls p =>
    let a := w.heap.alloc { own := [], proto := some p }
    (.ok (.obj a.1), { w with heap := a.2 })
  | _ => (.error (.error "TypeError" "not a constructor"), w)

/-- Calling a factory, `closure(app)`. -/
def runClosure (env : Collab) (c : Closure) (w : World) : Outcome × World :=
  match c with
  | .original id => env.factories id w
  | .constant v => (.ok v, w)
  | .construct k => construct k w

/-- Modelled from the spec: the container's `bind(name, factory)` (section 6),
not part of the source: registers a transient binding. -/
def iocBind (name : String) (c : Closure) (w : World) : World :=
  { w with bindings := fun n =>
      if n = name then some { closure := c, singleton := false, cachedValue := .null }
      else w.bindings n }

/-- Modelled from the spec: the container's `singleton(name, factory)` (section
6), not part of the source: registers a singleton binding, nothing cached yet. -/
def iocSingleton (name : String) (c : Closure) (w : World) : World :=
  { w with bindings := fun n =>
      if n = name then some { closure := c, singleton := true, cachedValue := .null }
      else w.bindings n }

/-- Modelled from the spec: resolution of a binding by the container, not part
of the source (section 4.4: reuse a cached instance for singletons, otherwise
invoke the factory fresh); a singleton caches what its factory returned. -/
def resolveBinding (env : Collab) (name : String) (b : Binding) (w : World) : Outcome × World :=
  if b.singleton then
    if b.cachedValue.truthy then (.ok b.cachedValue, w)
    else
      match runClosure env b.closure w with
      | (.error e, w1) => (.error e, w1)
      | (.ok v, w1) =>
        (.ok v, { w1 with bindings := fun n =>
            if n = name then some { b with cachedValue := v } else w1.bindings n })
  else runClosure env b.closure w

/-- Modelled from the spec: the container's `use(name)` (section 6), not part of
the source: a known binding is resolved; otherwise the namespace is autoloaded
and the class itself is returned (section 4.4 b). -/
def iocUse (env : Collab) (name : String) (w : World) : Outcome × World :=
  match w.bindings name with
  | some b => resolveBinding env name b w
  | none =>
    match env.autoload name with
    | some c => (.ok c, w)
    | none => (.error (.error "Error" ("Cannot find module " ++ name)), w)

/-- Modelled from the spec: the resolver's `resolve(name)` for controllers
(section 4.2), not part of the source: a known binding of the translated
namespace is resolved; otherwise the autoloaded class is instantiated. -/
def resolverResolve (env : Collab) (name : String) (w : World) : Outcome × World :=
  match w.bindings (env.translate name) with
  | some b => resolveBinding env (env.translate name) b w
  | none =>
    match env.autoload (env.translate name) with
    | some c => construct c w
    | none => (.error (.error "Error" ("Cannot find module " ++ env.translate name)), w)

/-- Assignment `v[name] = x` on any value. On `undefined` and `null` it throws;
so it does on a primitive, the provider being strict code. Properties of
functions are not modelled: the heap is unchanged. -/
def setMember (h : Heap) (v : Val) (name : String) (x : Val) : Except Val Heap :=
  match v with
  | .undefined => .error (.error "TypeError" ("Cannot set property " ++ name ++ " of undefined"))
  | .null => .error (.error "TypeError" ("Cannot set property " ++ name ++ " of null"))
  | .str _ => .error (.error "TypeError" ("Cannot create property " ++ name))
  | .num _ => .error (.error "TypeError" ("Cannot create property " ++ name))
  | .obj r => .ok (h.setProp r name x)
  | _ => .ok h

/-! ## hasMethod, getInstanceMethods -/

/-- The source's `hasMethod(obj, name)`. -/
def hasMethod (o : Obj) (name : String) : Bool :=
  match o.getOwn name with
  | some v => v.isFunction
  | none => false

/-- The names pushed for one prototype of the chain. -/
def methodsOf (o : Obj) : List String :=
  (o.own.map (fun p => p.1)).filter (fun name => name != "constructor" && hasMethod o name)

/-- The source's `getInstanceMethods(obj)` (no `stop`) on an object: the names
collected along the prototype chain, the object itself excluded. -/
def getInstanceMethods (h : Heap) (r : Ref) : List String :=
  (protoChain h r (h.get r).proto).flatMap (fun p => methodsOf (h.get p))

/-- The call `getInstanceMethods(v)` on any value: `Object.getPrototypeOf` throws
on `undefined` and `null`; the methods of the built-in prototypes of primitives
and functions are not modelled. -/
def getInstanceMethodsVal (h : Heap) (v : Val) : Except Val (List String) :=
  match v with
  | .undefined => .error (.error "TypeError" "Cannot convert undefined or null to object")
  | .null => .error (.error "TypeError" "Cannot convert undefined or null to object")
  | .obj r => .ok (getInstanceMethods h r)
  | _ => .ok []

/-! ## wrapRoute, wrapResource, wrapMiddleware -/

/-- The element `parts[i]` of a split used as a property key or inside a
template string: a missing element reads `undefined`, whose string is
"undefined". -/
def partOr (parts : List String) (i : Nat) : String := parts.getD i "undefined"

/-- The source's `wrapRoute(shim, route, handler)`. -/
def wrapRoute (env : Collab) (shim : Shim) (route handler : Val) (w : World) : Outcome × World :=
  if handler.isFunction then
    (shim.recordMiddleware handler
      { type := "APPLICATION", name := .str "<anonymous_function>", route := route,
        fromFirstArg := true, promise := false }, w)
  else
    match handler with
    | .str s =>
      let parts := jsSplit '.' s
      let controllerName := partOr parts 0
      let action := partOr parts 1
      match resolverResolve env controllerName w with
      | (.error e, w1) => (.error e, w1)
      | (.ok controllerInstance, w1) =>
        match getMember w1.heap controllerInstance action with
        | .error e => (.error e, w1)
        | .ok fn =>
          match setMember w1.heap controllerInstance action
              (wrapControllerMethod controllerName action fn) with
          | .error e => (.error e, w1)
          | .ok h2 =>
            (.ok handler,
              iocBind (env.translate controllerName) (.constant controllerInstance)
                { w1 with heap := h2 })
    | _ => (.error (.error "TypeError" "Route handler must be a string or function."), w)

/-- The function that replaces `Route.route`: `function (route, handler, verbs)`. -/
def routeWrapper (env : Collab) (shim : Shim) (originalFn : Behaviour) : Behaviour :=
  fun this args w =>
    let route := args.headD .undefined
    let handler := args.tail.headD .undefined
    let verbs := args.tail.tail.headD .undefined
    match wrapRoute env shim route handler w with
    | (.error e, w1) => (.error e, w1)
    | (.ok wrappedHandler, w1) => originalFn this [route, wrappedHandler, verbs] w1

/-- The constant `resourceMethods`. -/
def resourceMethods : List String :=
  ["index", "create", "store", "show", "edit", "update", "destroy"]

/-- The first occurrence of each element, in order. -/
def uniq : List String → List String
  | [] => []
  | x :: xs => x :: (uniq xs).filter (fun y => y != x)

/-- The call `intersection(resourceMethods, controllerMethods)`: the elements
of the first array that occur in the second, in order, once each. -/
def intersection (xs ys : List String) : List String :=
  uniq (xs.filter (fun x => ys.contains x))

/-- One round of the `forEach` of `wrapResource`. -/
def wrapResourceStep (controllerName : String) (controllerInstance : Val) (h : Heap)
    (method : String) : Except Val Heap :=
  match getMember h controllerInstance method with
  | .error e => .error e
  | .ok fn =>
    setMember h controllerInstance method (wrapControllerMethod controllerName method fn)

/-- The `forEach` of `wrapResource`; a throw ends it. -/
def wrapResourceLoop (controllerName : String) (controllerInstance : Val) :
    List String → Heap → Except Val Heap
  | [], h => .ok h
  | m :: ms, h =>
    match wrapResourceStep controllerName controllerInstance h m with
    | .error e => .error e
    | .ok h1 => wrapResourceLoop controllerName controllerInstance ms h1

/-- The source's `wrapResource(shim, resource, controllerName)`. -/
def wrapResource (env : Collab) (controllerName : String) (w : World) : Outcome × World :=
  match resolverResolve env controllerName w with
  | (.error e, w1) => (.error e, w1)
  | (.ok controllerInstance, w1) =>
    match getInstanceMethodsVal w1.heap controllerInstance with
    | .error e => (.error e, w1)
    | .ok controllerMethods =>
      match wrapResourceLoop controllerName controllerInstance
          (intersection resourceMethods controllerMethods) w1.heap with
      | .error e => (.error e, w1)
      | .ok h2 =>
        (.ok .undefined,
          iocBind (env.translate controllerName) (.constant controllerInstance)
            { w1 with heap := h2 })

/-- One round of the `forEach` of `wrapMiddleware`, for one namespace;
`iocBindings` is what `this.app.getBindings()` returned before the rounds. -/
def wrapMiddlewareStep (env : Collab) (iocBindings : String → Option Binding)
    (namespace_ : String) (w : World) : Outcome × World :=
  match iocBindings namespace_ with
  | some binding =>
    let resolved : Outcome × World :=
      if binding.singleton then
        if binding.cacheValue.truthy then (.ok binding.cacheValue, w)
        else runClosure env binding.closure w
      else runClosure env binding.closure w
    match resolved with
    | (.error e, w1) => (.error e, w1)
    | (.ok middleware, w1) =>
      match getMember w1.heap middleware "handle" with
      | .error e => (.error e, w1)
      | .ok handleFn =>
        match setMember w1.heap middleware "handle"
            (wrapMiddlewareHandler namespace_ handleFn) with
        | .error e => (.error e, w1)
        | .ok h2 =>
          if binding.singleton then
            (.ok .undefined, iocSingleton namespace_ (.constant middleware) { w1 with heap := h2 })
          else
            (.ok .undefined, iocBind namespace_ (.constant middleware) { w1 with heap := h2 })
  | none =>
    match iocUse env namespace_ w with
    | (.error e, w1) => (.error e, w1)
    | (.ok Middleware, w1) =>
      match getMember w1.heap Middleware "prototype" with
      | .error e => (.error e, w1)
      | .ok prototype =>
        match getMember w1.heap prototype "handle" with
        | .error e => (.error e, w1)
        | .ok handleFn =>
          match setMember w1.heap prototype "handle"
              (wrapMiddlewareHandler namespace_ handleFn) with
          | .error e => (.error e, w1)
          | .ok h2 =>
            (.ok .undefined, iocBind namespace_ (.construct Middleware) { w1 with heap := h2 })

/-- The `forEach` of `wrapMiddleware`: the rounds in order; a throw ends it. -/
def wrapMiddlewareLoop (env : Collab) (iocBindings : String → Option Binding) :
    List String → World → Outcome × World
  | [], w => (.ok .undefined, w)
  | namespace_ :: rest, w =>
    match wrapMiddlewareStep env iocBindings namespace_ w with
    | (.error e, w1) => (.error e, w1)
    | (.ok _, w1) => wrapMiddlewareLoop env iocBindings rest w1

/-- The source's `wrapMiddleware(shim, middleware)`: the bindings are read
once, `const iocBindings = this.app.getBindings()`, then the rounds run. -/
def wrapMiddleware (env : Collab) (middleware : List String) (w : World) : Outcome × World :=
  wrapMiddlewareLoop env w.bindings middleware w

/-! ## Sample data used by the closed instances -/

/-- A sample engine: function 1 returns 42, function 2 throws, function 5 is a
`url()` that returns a path, function 9 is a `url()` that throws; function 77
is the agent's recorder around function 1 and behaves like it. -/
def sampleRuntime : Runtime :=
  { call := fun f _ _ w =>
      match f with
      | .native 1 => (.ok (.num 42), w)
      | .native 2 => (.error (.error "Error" "boom"), w)
      | .native 5 => (.ok (.str "/users"), w)
      | .native 9 => (.error (.error "Error" "no url"), w)
      | .native 77 => (.ok (.num 42), w)
      | _ => (.ok .undefined, w) }

/-- A sample agent: records function 1 as function 77, any other as itself. -/
def sampleShim : Shim :=
  { recordMiddleware := fun fn _ =>
      match fn with
      | .native 1 => .ok (.native 77)
      | v => .ok v }

/-- A sample agent whose `recordMiddleware` throws. -/
def failingShim : Shim :=
  { recordMiddleware := fun _ _ => .error (.error "Error" "agent") }

/-- A sample heap: object 0 is a context whose `request` is object 1, which has
a working `url`; object 2 is a context without `request`; object 3 is a context
whose request, object 4, has a throwing `url`. -/
def sampleHeap : Heap :=
  { objs := fun r =>
      match r with
      | 0 => { own := [("request", .obj 1)], proto := none }
      | 1 => { own := [("url", .native 5)], proto := none }
      | 3 => { own := [("request", .obj 4)], proto := none }
      | 4 => { own := [("url", .native 9)], proto := none }
      | _ => { own := [], proto := none },
    next := 5 }

/-- A sample world: the sample heap and an empty container. -/
def sampleWorld : World := { heap := sampleHeap, bindings := fun _ => none }

/-- Sample collaborators: factory 0 builds a fresh instance of the class whose
prototype is object 10, any other factory returns `undefined`; the namespaces
`App/Controllers/Http/UserController` and `App/Middleware/Custom` are
autoloaded as that class; controllers are translated to `App/Controllers/Http/`. -/
def sampleCollab : Collab :=
  { factories := fun id w =>
      match id with
      | 0 => construct (.cls 10) w
      | _ => (.ok .undefined, w),
    autoload := fun name =>
      if name = "App/Controllers/Http/UserController" ∨ name = "App/Middleware/Custom" then
        some (.cls 10)
      else none,
    translate := fun name => "App/Controllers/Http/" ++ name }

/-- Whether an event is a call to the agent that names the transaction or
hands over a span descriptor (the remaining events are calls to `Route.match`). -/
def Event.isAgentCall : Event → Bool
  | .routeMatch _ _ _ => false
  | .setControllerName _ _ => true
  | .recordMiddleware _ _ => true

/-- Whether an event is a call to `Route.match`. -/
def Event.isRouteMatch : Event → Bool
  | .routeMatch _ _ _ => true
  | _ => false

/-- A sample server without route subsystem, on which every request is an
OPTIONS request. -/
def optionsServerNoRoute : Server :=
  { self := .obj 7,
    Context := fun _ _ => { url := "/users", method := "OPTIONS", hostname := "localhost" },
    Route := none }

/-- A sample server whose router matches nothing, on which every request is an
OPTIONS request. -/
def optionsServerNoMatch : Server :=
  { self := .obj 7,
    Context := fun _ _ => { url := "/users", method := "OPTIONS", hostname := "localhost" },
    Route := some { matchRoute := fun _ _ _ => none, matchFn := .native 30 } }

/-- A sample server without route subsystem, on which every request is a GET. -/
def getServerNoRoute : Server :=
  { self := .obj 7,
    Context := fun _ _ => { url := "/users", method := "GET", hostname := "localhost" },
    Route := none }

/-- A sample server on which every request is a GET; its router matches
`/users` to the route named `users` handled by `UserController.index`. -/
def getServerString : Server :=
  { self := .obj 7,
    Context := fun _ _ => { url := "/users", method := "GET", hostname := "localhost" },
    Route := some
      { matchRoute := fun url _ _ =>
          if url = "/users" then
            some { name := .str "users", handler := .str "UserController.index" }
          else none,
        matchFn := .native 30 } }

/-- A sample server on which every request is a GET; its router matches
everything to the route named `home` handled by a function. -/
def getServerFunction : Server :=
  { self := .obj 7,
    Context := fun _ _ => { url := "/", method := "GET", hostname := "localhost" },
    Route := some
      { matchRoute := fun _ _ _ => some { name := .str "home", handler := .native 1 },
        matchFn := .native 30 } }

/-- The request the dispatcher's wrapper reads for an argument list: that of
`new this.Context(req, res)`. -/
def requestOf (server : Server) (args : List Val) : Request :=
  server.Context (args.headD .undefined) (args.tail.headD .undefined)

/-- The ROUTER descriptor the dispatcher's wrapper builds for a request. -/
def routerSpec (request : Request) : Spec :=
  { type := "ROUTER", name := .undefined, route := .str request.url,
    fromFirstArg := false, promise := false }

/-- A sample heap for controllers: object 9 is the prototype of a base class
with a `store` method, object 10 the prototype of the controller class, which
extends it with methods `index`, `show`, `helper` and a non-function `edit`. -/
def controllerHeap : Heap :=
  { objs := fun r =>
      match r with
      | 9 => { own := [("constructor", .cls 9), ("store", .native 3)], proto := none }
      | 10 =>
        { own := [("constructor", .cls 10), ("index", .native 1), ("show", .native 2),
            ("helper", .native 4), ("edit", .num 5)],
          proto := some 9 }
      | _ => { own := [], proto := none },
    next := 11 }

/-- A sample world: the controller heap and an empty container. -/
def controllerWorld : World := { heap := controllerHeap, bindings := fun _ => none }

/-- A sample heap for middleware: object 10 is the prototype of a middleware
class with a `handle` method; object 11 is an instance of it built earlier. -/
def middlewareHeap : Heap :=
  { objs := fun r =>
      match r with
      | 10 => { own := [("constructor", .cls 10), ("handle", .native 1)], proto := none }
      | 11 => { own := [], proto := some 10 }
      | _ => { own := [], proto := none },
    next := 12 }

/-- A sample world for middleware: `Adonis/Middleware/Auth` is a transient
binding whose factory builds a fresh instance each time,
`Adonis/Middleware/Session` a singleton binding with the same factory and
nothing cached, `Adonis/Middleware/Shield` a singleton binding whose cached
instance is object 11. -/
def middlewareWorld : World :=
  { heap := middlewareHeap,
    bindings := fun name =>
      if name = "Adonis/Middleware/Auth" then
        some { closure := .original 0, singleton := false, cachedValue := .null }
      else if name = "Adonis/Middleware/Session" then
        some { closure := .original 0, singleton := true, cachedValue := .null }
      else if name = "Adonis/Middleware/Shield" then
        some { closure := .original 0, singleton := true, cachedValue := .obj 11 }
      else none }

/-- The objects of a prototype chain: `OnChain h start p` says that `p` is
reached from `start` by following prototype links (`start` itself included). -/
inductive OnChain (h : Heap) : Option Ref → Ref → Prop where
  | here (p : Ref) : OnChain h (some p) p
  | next (p q : Ref) : OnChain h (h.get p).proto q → OnChain h (some p) q

/-- The claim's "the controller implements `m` as a method", in the words of
the spec (the methods actually implemented by the controller, found on its
prototype chain): some object reached from the instance's prototype has an own
property `m` whose value is a function. -/
def implementsMethod (h : Heap) (r : Ref) (m : String) : Prop :=
  ∃ p v, OnChain h (h.get r).proto p ∧ (h.get p).getOwn m = some v ∧ v.isFunction = true

/-- The heap invariant behind the fuel of `protoChain`: every object was
allocated after its prototype. -/
def Heap.protoBefore (h : Heap) : Prop :=
  ∀ x p, (h.get x).proto = some p → p < x

/-! # Theorems -/

/-! ## C1: unsupported handlers -/

/-- C1: when the handler given to the wrapped `Route.route` is neither a
function nor a string, the call throws the TypeError 'Route handler must be a
string or function.' whatever the original registration function is, and the
state is the one before the call: the original was not invoked. -/
theorem routeWrapper_rejects_unsupported_handler (env : Collab) (shim : Shim)
    (originalFn : Behaviour) (this : Val) (args : List Val) (w : World)
    (hfn : (args.tail.headD Val.undefined).isFunction = false)
    (hstr : (args.tail.headD Val.undefined).isString = false) :
    wrapRoute env shim (args.headD Val.undefined) (args.tail.headD Val.undefined) w
        = (.error (.error "TypeError" "Route handler must be a string or function."), w)
      ∧ routeWrapper env shim originalFn this args w
        = (.error (.error "TypeError" "Route handler must be a string or function."), w) := by
  have h1 : wrapRoute env shim (args.headD Val.undefined) (args.tail.headD Val.undefined) w
      = (.error (.error "TypeError" "Route handler must be a string or function."), w) := by
    generalize args.tail.headD Val.undefined = handler at hfn hstr
    cases handler <;> simp_all [wrapRoute, Val.isFunction, Val.isString]
  refine ⟨h1, ?_⟩
  simp only [routeWrapper, h1]

/-- Instance of C1: a plain object as handler, with an original registration
function that would return. -/
theorem routeWrapper_rejects_unsupported_handler_witness :
    (routeWrapper sampleCollab sampleShim (sampleRuntime.call (.native 1)) (.obj 7)
        [.str "/users", .obj 2, .undefined] sampleWorld).1
      = .error (.error "TypeError" "Route handler must be a string or function.") :=
  congrArg Prod.fst
    (routeWrapper_rejects_unsupported_handler sampleCollab sampleShim (sampleRuntime.call (.native 1)) (.obj 7)
      [.str "/users", .obj 2, .undefined] sampleWorld rfl rfl).2

/-! ## C2, C3: the wrappers of controller methods and middleware handlers -/

/-- The body of a wrapper after a successful instrumentation step. -/
theorem wrapperBody_of_instrument_ok (rt : Runtime) (shim : Shim) (type name : String)
    (fn this : Val) (args : List Val) (w : World) (g : Val) (w1 : World)
    (h : instrument rt shim type name fn args w = (.ok g, w1)) :
    wrapperBody rt shim type name fn this args w = rt.call g this args w1 := by
  simp only [wrapperBody, h]

/-- C2 as stated fails: a controller method that returns 42, wrapped and called
with a context that carries no request. The instrumentation step throws, and
the caller observes that TypeError instead of the original's return value. -/
theorem wrapper_not_transparent_on_instrumentation_failure :
    ¬ (∀ (rt : Runtime) (shim : Shim) (c n : String) (f this : Val) (args : List Val)
        (w : World) (e : Val) (w1 : World),
        instrument rt shim "APPLICATION" (c ++ "." ++ n) f args w = (.error e, w1) →
        (wrapControllerMethodBody rt shim c n f this args w).1 = (rt.call f this args w).1) := by
  intro h
  have h1 := h sampleRuntime sampleShim "UserController" "index" (.native 1) (.obj 7) [.obj 2]
    sampleWorld (.error "TypeError" "Cannot read property url of undefined") sampleWorld rfl
  have h2 : (wrapControllerMethodBody sampleRuntime sampleShim "UserController" "index"
      (.native 1) (.obj 7) [.obj 2] sampleWorld).1
      = .error (.error "TypeError" "Cannot read property url of undefined") := rfl
  have h3 : (sampleRuntime.call (.native 1) (.obj 7) [.obj 2] sampleWorld).1
      = .ok (.num 42) := rfl
  rw [h2, h3] at h1
  cases h1

/-- C2, amended: in a wrapped controller method and in a wrapped middleware
handler, each step of the instrumentation that throws ends the call with that
error, in the state reached so far, so that the original has not run: the
destructuring of the first argument (state as at the call), `request.url()`
(state as `url()` left it), and `shim.recordMiddleware` given the original and
the descriptor built from the name and the route (state as `url()` left it).
When all three succeed, the function that `shim.recordMiddleware` returned is
applied to the receiver and the arguments of the call, in the state `url()`
left, and its outcome is the wrapper's. -/
theorem wrapper_outcome_follows_instrumentation (rt : Runtime) (shim : Shim)
    (c n m : String) (f this : Val) (args : List Val) (w : World) :
    (∀ e, getMember w.heap (args.headD Val.undefined) "request" = .error e →
        wrapControllerMethodBody rt shim c n f this args w = (.error e, w)
          ∧ wrapMiddlewareHandlerBody rt shim m f this args w = (.error e, w))
      ∧ (∀ request e w1, getMember w.heap (args.headD Val.undefined) "request" = .ok request →
        callMethod rt request "url" [] w = (.error e, w1) →
        wrapControllerMethodBody rt shim c n f this args w = (.error e, w1)
          ∧ wrapMiddlewareHandlerBody rt shim m f this args w = (.error e, w1))
      ∧ (∀ request route w1,
        getMember w.heap (args.headD Val.undefined) "request" = .ok request →
        callMethod rt request "url" [] w = (.ok route, w1) →
        (∀ e, shim.recordMiddleware f
              { type := "APPLICATION", name := .str (c ++ "." ++ n), route := route,
                fromFirstArg := true, promise := true } = .error e →
            wrapControllerMethodBody rt shim c n f this args w = (.error e, w1))
          ∧ (∀ g, shim.recordMiddleware f
              { type := "APPLICATION", name := .str (c ++ "." ++ n), route := route,
                fromFirstArg := true, promise := true } = .ok g →
            wrapControllerMethodBody rt shim c n f this args w = rt.call g this args w1)
          ∧ (∀ e, shim.recordMiddleware f
              { type := "MIDDLEWARE", name := .str (m ++ ".handle"), route := route,
                fromFirstArg := true, promise := true } = .error e →
            wrapMiddlewareHandlerBody rt shim m f this args w = (.error e, w1))
          ∧ (∀ g, shim.recordMiddleware f
              { type := "MIDDLEWARE", name := .str (m ++ ".handle"), route := route,
                fromFirstArg := true, promise := true } = .ok g →
            wrapMiddlewareHandlerBody rt shim m f this args w = rt.call g this args w1)) := by
  refine ⟨?_, ?_, ?_⟩
  · intro e h1
    simp only [wrapControllerMethodBody, wrapMiddlewareHandlerBody, wrapperBody, instrument, h1,
      and_self]
  · intro request e w1 h1 h2
    simp only [wrapControllerMethodBody, wrapMiddlewareHandlerBody, wrapperBody, instrument, h1,
      h2, and_self]
  · intro request route w1 h1 h2
    refine ⟨?_, ?_, ?_, ?_⟩ <;> intro x h3 <;>
      simp only [wrapControllerMethodBody, wrapMiddlewareHandlerBody, wrapperBody, instrument,
        h1, h2, h3]

/-- Instances of the amended C2: a context without request, a throwing
`url()`, a throwing agent, and a successful step. -/
theorem wrapper_outcome_follows_instrumentation_witness :
    (wrapControllerMethodBody sampleRuntime sampleShim "UserController" "index" (.native 1)
        (.obj 7) [.undefined] sampleWorld).1
        = .error (.error "TypeError" "Cannot read property request of undefined")
      ∧ (wrapControllerMethodBody sampleRuntime sampleShim "UserController" "index" (.native 1)
        (.obj 7) [.obj 3] sampleWorld).1 = .error (.error "Error" "no url")
      ∧ (wrapMiddlewareHandlerBody sampleRuntime failingShim "Auth" (.native 1)
        (.obj 7) [.obj 0] sampleWorld).1 = .error (.error "Error" "agent")
      ∧ (wrapControllerMethodBody sampleRuntime sampleShim "UserController" "index" (.native 1)
        (.obj 7) [.obj 0] sampleWorld).1 = .ok (.num 42) :=
  ⟨congrArg Prod.fst
    ((wrapper_outcome_follows_instrumentation sampleRuntime sampleShim "UserController" "index"
      "Auth" (.native 1) (.obj 7) [.undefined] sampleWorld).1 _ rfl).1,
   congrArg Prod.fst
    ((wrapper_outcome_follows_instrumentation sampleRuntime sampleShim "UserController" "index"
      "Auth" (.native 1) (.obj 7) [.obj 3] sampleWorld).2.1 (.obj 4) _ sampleWorld rfl rfl).1,
   congrArg Prod.fst
    (((wrapper_outcome_follows_instrumentation sampleRuntime failingShim "UserController" "index"
      "Auth" (.native 1) (.obj 7) [.obj 0] sampleWorld).2.2 (.obj 1) (.str "/users") sampleWorld
        rfl rfl).2.2.1 _ rfl),
   congrArg Prod.fst
    (((wrapper_outcome_follows_instrumentation sampleRuntime sampleShim "UserController" "index"
      "Auth" (.native 1) (.obj 7) [.obj 0] sampleWorld).2.2 (.obj 1) (.str "/users") sampleWorld
        rfl rfl).2.1 (.native 77) rfl)⟩

/-- C3: for a first argument that carries a request whose `url()` returns (and
leaves the state as it is), and an agent whose `recordMiddleware` returns a
function that behaves as the one it is given, calling the wrapper of a
controller method, or of a middleware handler, has the outcome of calling the
original with the same receiver and arguments: the same returned value or
thrown error, and the same final state. -/
theorem wrapper_transparent (rt : Runtime) (shim : Shim) (c n m : String) (f this : Val)
    (args : List Val) (w : World) (request u : Val)
    (hreq : getMember w.heap (args.headD Val.undefined) "request" = .ok request)
    (hurl : callMethod rt request "url" [] w = (.ok u, w))
    (hrec : ∀ spec, ∃ g, shim.recordMiddleware f spec = .ok g
      ∧ ∀ this1 args1 w1, rt.call g this1 args1 w1 = rt.call f this1 args1 w1) :
    wrapControllerMethodBody rt shim c n f this args w = rt.call f this args w
      ∧ wrapMiddlewareHandlerBody rt shim m f this args w = rt.call f this args w := by
  constructor
  · obtain ⟨g, hg, hcall⟩ := hrec
      { type := "APPLICATION", name := .str (c ++ "." ++ n), route := u, fromFirstArg := true,
        promise := true }
    rw [wrapControllerMethodBody,
      wrapperBody_of_instrument_ok rt shim _ _ f this args w g w
        (by simp only [instrument, hreq, hurl, hg]), hcall]
  · obtain ⟨g, hg, hcall⟩ := hrec
      { type := "MIDDLEWARE", name := .str (m ++ ".handle"), route := u, fromFirstArg := true,
        promise := true }
    rw [wrapMiddlewareHandlerBody,
      wrapperBody_of_instrument_ok rt shim _ _ f this args w g w
        (by simp only [instrument, hreq, hurl, hg]), hcall]

/-- Instances of C3: an original that returns, and one that throws. -/
theorem wrapper_transparent_witness :
    (wrapControllerMethodBody sampleRuntime sampleShim "UserController" "index" (.native 1)
        (.obj 7) [.obj 0] sampleWorld).1 = .ok (.num 42)
      ∧ (wrapMiddlewareHandlerBody sampleRuntime sampleShim "Auth" (.native 2)
        (.obj 7) [.obj 0] sampleWorld).1 = .error (.error "Error" "boom") :=
  ⟨congrArg Prod.fst
    (wrapper_transparent sampleRuntime sampleShim "UserController" "index" "Auth" (.native 1)
      (.obj 7) [.obj 0] sampleWorld (.obj 1) (.str "/users") rfl rfl
      (fun _ => ⟨.native 77, rfl, fun _ _ _ => rfl⟩)).1,
   congrArg Prod.fst
    (wrapper_transparent sampleRuntime sampleShim "UserController" "index" "Auth" (.native 2)
      (.obj 7) [.obj 0] sampleWorld (.obj 1) (.str "/users") rfl rfl
      (fun _ => ⟨.native 2, rfl, fun _ _ _ => rfl⟩)).2⟩

/-! ## C4, C5, C10: the request dispatcher -/

/-- The descriptor the dispatcher's wrapper hands to the agent. -/
theorem handleTail_with_router (shim : Shim) (originalFn : Behaviour) (server : Server)
    (request : Request) (args : List Val) (events : List Event) (w : World)
    (rm : RouteManager) (g : Val) (hroute : server.Route = some rm)
    (hrec : shim.recordMiddleware rm.matchFn
      { type := "ROUTER", name := .undefined, route := .str request.url,
        fromFirstArg := false, promise := false } = .ok g) :
    handleTail shim originalFn server request args events w
      = (events ++ [.recordMiddleware rm.matchFn
          { type := "ROUTER", name := .undefined, route := .str request.url,
            fromFirstArg := false, promise := false }], originalFn server.self args w) := by
  simp only [handleTail, hroute, hrec]

/-- For an excluded verb on a server that has a route subsystem (and an agent
whose `recordMiddleware` returns), the wrapper makes no call to `Route.match`
and applies the original to the receiver and the arguments it got. -/
theorem handleWrapper_excluded_with_router (shim : Shim) (originalFn : Behaviour)
    (server : Server) (args : List Val) (w : World) (rm : RouteManager) (g : Val)
    (hverb : excludeVerbs.contains
      (server.Context (args.headD .undefined) (args.tail.headD .undefined)).method = true)
    (hroute : server.Route = some rm)
    (hrec : shim.recordMiddleware rm.matchFn
      { type := "ROUTER", name := .undefined,
        route := .str (server.Context (args.headD .undefined) (args.tail.headD .undefined)).url,
        fromFirstArg := false, promise := false } = .ok g) :
    ((handleWrapper shim originalFn server args w).1.any Event.isRouteMatch = false)
      ∧ (handleWrapper shim originalFn server args w).2 = originalFn server.self args w := by
  simp only [handleWrapper, hverb, Bool.not_true, Bool.false_eq_true, if_false,
    handleTail_with_router shim originalFn server _ args [] w rm g hroute hrec]
  exact ⟨rfl, trivial⟩

/-- C4, at the failing input: an OPTIONS request on a server without route
subsystem. The wrapper throws a TypeError when it reads `this.Route.match`;
the original `handle` is not applied, whatever it is. -/
theorem handleWrapper_options_without_router_throws (shim : Shim) (originalFn : Behaviour) :
    handleWrapper shim originalFn optionsServerNoRoute [.obj 0, .obj 1] sampleWorld
      = ([], (.error (.error "TypeError" "Cannot read property match of undefined"),
          sampleWorld)) := rfl

/-- C5 as stated fails for an excluded verb: for an OPTIONS request on a server
whose router matches nothing, the wrapper hands a ROUTER descriptor to the
agent before it applies the original. -/
theorem handleWrapper_records_descriptor_for_excluded_verb :
    ¬ (∀ (shim : Shim) (originalFn : Behaviour) (server : Server) (args : List Val) (w : World),
        (server.Route = none ∨ ∃ rm, server.Route = some rm ∧
          rm.matchRoute (server.Context (args.headD .undefined) (args.tail.headD .undefined)).url
            (server.Context (args.headD .undefined) (args.tail.headD .undefined)).method
            (server.Context (args.headD .undefined) (args.tail.headD .undefined)).hostname
            = none) →
        (handleWrapper shim originalFn server args w).1.any Event.isAgentCall = false
          ∧ (handleWrapper shim originalFn server args w).2 = originalFn server.self args w) := by
  intro h
  have h1 := (h sampleShim (sampleRuntime.call (.native 1)) optionsServerNoMatch
    [.obj 0, .obj 1] sampleWorld (Or.inr ⟨_, rfl, rfl⟩)).1
  have h2 : (handleWrapper sampleShim (sampleRuntime.call (.native 1)) optionsServerNoMatch
      [.obj 0, .obj 1] sampleWorld).1.any Event.isAgentCall = true := rfl
  rw [h2] at h1
  cases h1

/-- C5, amended: for a request whose verb is not excluded, if the server has no
route subsystem or `Route.match` finds no route, the wrapper makes no call to
the agent (no controller name, no span descriptor) and its outcome is that of
the original `handle` applied to the receiver and the arguments it got. -/
theorem handleWrapper_without_match (shim : Shim) (originalFn : Behaviour) (server : Server)
    (args : List Val) (w : World)
    (hverb : excludeVerbs.contains
      (server.Context (args.headD .undefined) (args.tail.headD .undefined)).method = false)
    (hroute : server.Route = none ∨ ∃ rm, server.Route = some rm ∧
      rm.matchRoute (server.Context (args.headD .undefined) (args.tail.headD .undefined)).url
        (server.Context (args.headD .undefined) (args.tail.headD .undefined)).method
        (server.Context (args.headD .undefined) (args.tail.headD .undefined)).hostname = none) :
    (handleWrapper shim originalFn server args w).1.any Event.isAgentCall = false
      ∧ (handleWrapper shim originalFn server args w).2 = originalFn server.self args w := by
  rcases hroute with hnone | ⟨rm, hsome, hmatch⟩
  · simp only [handleWrapper, hverb, hnone, Bool.not_false, if_true, List.any_nil, and_self]
  · simp only [handleWrapper, hverb, hsome, hmatch, Bool.not_false, if_true, List.any_cons,
      List.any_nil, Event.isAgentCall, Bool.or_false, and_self]

/-- Instance of the amended C5: a GET request on a server without route
subsystem. -/
theorem handleWrapper_without_match_witness :
    (handleWrapper sampleShim (sampleRuntime.call (.native 1)) getServerNoRoute
        [.obj 0, .obj 1] sampleWorld).1.any Event.isAgentCall = false
      ∧ (handleWrapper sampleShim (sampleRuntime.call (.native 1)) getServerNoRoute
        [.obj 0, .obj 1] sampleWorld).2
        = sampleRuntime.call (.native 1) (.obj 7) [.obj 0, .obj 1] sampleWorld :=
  handleWrapper_without_match sampleShim (sampleRuntime.call (.native 1)) getServerNoRoute
    [.obj 0, .obj 1] sampleWorld rfl (Or.inl rfl)

/-- Splitting at a separator that does not occur gives the text itself. -/
theorem splitChars_of_not_mem (sep : Char) (l : List Char) (h : sep ∉ l) :
    splitChars sep l = [l] := by
  induction l with
  | nil => rfl
  | cons c cs ih =>
    have hc : c ≠ sep := fun hEq => h (by simp [hEq])
    have hcs : sep ∉ cs := fun hm => h (List.mem_cons_of_mem _ hm)
    simp [splitChars, hc, ih hcs]

/-- Splitting a text whose first separator comes after `l`. -/
theorem splitChars_append_sep (sep : Char) (l rest : List Char) (h : sep ∉ l) :
    splitChars sep (l ++ sep :: rest) = l :: splitChars sep rest := by
  induction l with
  | nil => simp [splitChars]
  | cons c cs ih =>
    have hc : c ≠ sep := fun hEq => h (by simp [hEq])
    have hcs : sep ∉ cs := fun hm => h (List.mem_cons_of_mem _ hm)
    simp [splitChars, hc, ih hcs]

/-- The split of "X.Y" at the dot, for parts without a dot. -/
theorem jsSplit_dot_pair (x y : String) (hx : '.' ∉ x.data) (hy : '.' ∉ y.data) :
    jsSplit '.' (x ++ "." ++ y) = [x, y] := by
  have hd : (x ++ "." ++ y).data = x.data ++ '.' :: y.data := by
    simp [String.data_append]
  simp [jsSplit, hd, splitChars_append_sep '.' x.data y.data hx, splitChars_of_not_mem '.' y.data hy]

/-- The end of the dispatcher's wrapper on a server with a route subsystem:
the descriptor is handed to the agent; if the agent throws, so does the
wrapper, otherwise the original is applied. -/
theorem handleTail_cases (shim : Shim) (originalFn : Behaviour) (server : Server)
    (request : Request) (args : List Val) (events : List Event) (w : World)
    (rm : RouteManager) (hroute : server.Route = some rm) :
    (handleTail shim originalFn server request args events w).1
        = events ++ [.recordMiddleware rm.matchFn (routerSpec request)]
      ∧ (∀ g, shim.recordMiddleware rm.matchFn (routerSpec request) = .ok g →
          (handleTail shim originalFn server request args events w).2
            = originalFn server.self args w)
      ∧ (∀ e, shim.recordMiddleware rm.matchFn (routerSpec request) = .error e →
          (handleTail shim originalFn server request args events w).2 = (.error e, w)) := by
  simp only [handleTail, hroute, routerSpec]
  cases hrec : shim.recordMiddleware rm.matchFn
      { type := "ROUTER", name := .undefined, route := .str request.url,
        fromFirstArg := false, promise := false } with
  | error e => simp
  | ok g => simp

/-- C10 as stated fails: for a GET request matched to a route whose handler is
a function, with an agent whose `recordMiddleware` throws, the wrapper throws
that error after naming the transaction and the original `handle` is not
called. -/
theorem handleWrapper_original_not_called_when_agent_throws :
    ¬ (∀ (shim : Shim) (originalFn : Behaviour) (server : Server) (args : List Val) (w : World)
        (rm : RouteManager) (json : RouteJSON),
        excludeVerbs.contains (requestOf server args).method = false →
        server.Route = some rm →
        rm.matchRoute (requestOf server args).url (requestOf server args).method
          (requestOf server args).hostname = some json →
        json.handler.isFunction = true →
        (handleWrapper shim originalFn server args w).2 = originalFn server.self args w) := by
  intro h
  have h1 := congrArg Prod.fst
    (h failingShim (sampleRuntime.call (.native 1)) getServerFunction [.obj 0, .obj 1]
      sampleWorld _ _ rfl rfl rfl rfl)
  have h2 : (handleWrapper failingShim (sampleRuntime.call (.native 1)) getServerFunction
      [.obj 0, .obj 1] sampleWorld).2.1 = .error (.error "Error" "agent") := rfl
  have h3 : (sampleRuntime.call (.native 1) getServerFunction.self [.obj 0, .obj 1]
      sampleWorld).1 = .ok (.num 42) := rfl
  rw [h2, h3] at h1
  cases h1

/-- C10, amended: for a request whose verb is not excluded and for which
`Route.match` returns a route, the wrapper of `handle` calls `Route.match`,
then names the transaction, then hands the ROUTER descriptor to the agent. The
name is the pair (component, action) when the route's handler is the string
"component.action" with a single dot, and the pair (route name, verb) when the
handler is a function. Whatever the handler, if the agent's `recordMiddleware`
returns, the outcome is that of the original applied to the receiver and the
arguments the wrapper got; if it throws, the wrapper throws that error and the
original is not applied. -/
theorem handleWrapper_names_transaction (shim : Shim) (originalFn : Behaviour)
    (server : Server) (args : List Val) (w : World) (rm : RouteManager) (json : RouteJSON)
    (hverb : excludeVerbs.contains (requestOf server args).method = false)
    (hroute : server.Route = some rm)
    (hmatch : rm.matchRoute (requestOf server args).url (requestOf server args).method
      (requestOf server args).hostname = some json) :
    (∀ component action : String, '.' ∉ component.data → '.' ∉ action.data →
        json.handler = .str (component ++ "." ++ action) →
        (handleWrapper shim originalFn server args w).1
          = [.routeMatch (requestOf server args).url (requestOf server args).method
                (requestOf server args).hostname,
              .setControllerName (.str component) (.str action),
              .recordMiddleware rm.matchFn (routerSpec (requestOf server args))])
      ∧ (json.handler.isFunction = true →
        (handleWrapper shim originalFn server args w).1
          = [.routeMatch (requestOf server args).url (requestOf server args).method
                (requestOf server args).hostname,
              .setControllerName json.name (.str (requestOf server args).method),
              .recordMiddleware rm.matchFn (routerSpec (requestOf server args))])
      ∧ (∀ g, shim.recordMiddleware rm.matchFn (routerSpec (requestOf server args)) = .ok g →
        (handleWrapper shim originalFn server args w).2 = originalFn server.self args w)
      ∧ (∀ e, shim.recordMiddleware rm.matchFn (routerSpec (requestOf server args)) = .error e →
        (handleWrapper shim originalFn server args w).2 = (.error e, w)) := by
  have htail := fun events =>
    handleTail_cases shim originalFn server (requestOf server args) args events w rm hroute
  simp only [requestOf] at hverb hmatch htail ⊢
  refine ⟨?_, ?_, ?_, ?_⟩
  · intro component action hc ha hh
    simp only [handleWrapper, hverb, hroute, hmatch, hh, Bool.not_false, if_true,
      (htail _).1, splitHandler, jsSplit_dot_pair component action hc ha, List.head?_cons,
      List.tail_cons, Option.map_some', Option.getD_some, List.cons_append, List.nil_append]
  · intro hfn
    obtain ⟨name, handler⟩ := json
    cases handler <;> simp only [Val.isFunction, Bool.false_eq_true] at hfn <;>
      simp only [handleWrapper, hverb, hroute, hmatch, Bool.not_false, if_true, Val.isFunction,
        (htail _).1, List.cons_append, List.nil_append]
  · intro g hg
    obtain ⟨name, handler⟩ := json
    cases handler <;>
      simp only [handleWrapper, hverb, hroute, hmatch, Bool.not_false, if_true, Val.isFunction,
        Bool.false_eq_true, if_false, (htail _).2.1 g hg]
  · intro e he
    obtain ⟨name, handler⟩ := json
    cases handler <;>
      simp only [handleWrapper, hverb, hroute, hmatch, Bool.not_false, if_true, Val.isFunction,
        Bool.false_eq_true, if_false, (htail _).2.2 e he]

/-- Instances of the amended C10: a string handler and a function handler with
an agent that returns, and a function handler with an agent that throws. -/
theorem handleWrapper_names_transaction_witness :
    (handleWrapper sampleShim (sampleRuntime.call (.native 1)) getServerString
        [.obj 0, .obj 1] sampleWorld).1
        = [.routeMatch "/users" "GET" "localhost",
            .setControllerName (.str "UserController") (.str "index"),
            .recordMiddleware (.native 30) (routerSpec (requestOf getServerString []))]
      ∧ (handleWrapper sampleShim (sampleRuntime.call (.native 1)) getServerFunction
        [.obj 0, .obj 1] sampleWorld).1
        = [.routeMatch "/" "GET" "localhost",
            .setControllerName (.str "home") (.str "GET"),
            .recordMiddleware (.native 30) (routerSpec (requestOf getServerFunction []))]
      ∧ (handleWrapper sampleShim (sampleRuntime.call (.native 1)) getServerFunction
        [.obj 0, .obj 1] sampleWorld).2.1 = .ok (.num 42)
      ∧ (handleWrapper failingShim (sampleRuntime.call (.native 1)) getServerFunction
        [.obj 0, .obj 1] sampleWorld).2.1 = .error (.error "Error" "agent") :=
  ⟨(handleWrapper_names_transaction sampleShim (sampleRuntime.call (.native 1)) getServerString
      [.obj 0, .obj 1] sampleWorld _ _ rfl rfl rfl).1
        "UserController" "index" (by decide) (by decide) rfl,
   (handleWrapper_names_transaction sampleShim (sampleRuntime.call (.native 1))
      getServerFunction [.obj 0, .obj 1] sampleWorld _ _ rfl rfl rfl).2.1 rfl,
   congrArg Prod.fst
    ((handleWrapper_names_transaction sampleShim (sampleRuntime.call (.native 1))
      getServerFunction [.obj 0, .obj 1] sampleWorld _ _ rfl rfl rfl).2.2.1 (.native 30) rfl),
   congrArg Prod.fst
    ((handleWrapper_names_transaction failingShim (sampleRuntime.call (.native 1))
      getServerFunction [.obj 0, .obj 1] sampleWorld _ _ rfl rfl rfl).2.2.2 _ rfl)⟩

/-! ## Heap lemmas -/

theorem getOwn_set_same (o : Obj) (name : String) (v : Val) :
    (o.set name v).getOwn name = some v := by
  simp [Obj.set, Obj.getOwn]

theorem getOwn_set_other (o : Obj) (name other : String) (v : Val) (h : other ≠ name) :
    (o.set name v).getOwn other = o.getOwn other := by
  have h1 : (name == other) = false := by simpa using fun hEq => h hEq.symm
  simp only [Obj.set, Obj.getOwn, List.find?_cons, h1, List.find?_filter]
  congr 2
  funext p
  by_cases hp : p.1 = other
  · have : (p.1 == name) = false := by simpa [hp] using h
    simp [hp, this, h]
  · simp [hp]

theorem proto_set (o : Obj) (name : String) (v : Val) : (o.set name v).proto = o.proto := rfl

theorem get_setProp_same (h : Heap) (r : Ref) (name : String) (v : Val) :
    (h.setProp r name v).get r = (h.get r).set name v := by
  simp [Heap.setProp, Heap.get]

theorem get_setProp_other (h : Heap) (r x : Ref) (name : String) (v : Val) (hx : x ≠ r) :
    (h.setProp r name v).get x = h.get x := by
  simp [Heap.setProp, Heap.get, hx]

theorem proto_setProp (h : Heap) (r x : Ref) (name : String) (v : Val) :
    ((h.setProp r name v).get x).proto = (h.get x).proto := by
  by_cases hx : x = r
  · subst hx; rw [get_setProp_same, proto_set]
  · rw [get_setProp_other h r x name v hx]

theorem protoChain_setProp (h : Heap) (r : Ref) (name : String) (v : Val) (fuel : Nat)
    (p : Option Ref) : protoChain (h.setProp r name v) fuel p = protoChain h fuel p := by
  induction fuel generalizing p with
  | zero => simp [protoChain]
  | succ n ih =>
    cases p with
    | none => simp [protoChain]
    | some q => simp only [protoChain, proto_setProp, ih]

theorem getOwn_setProp_other_name (h : Heap) (r x : Ref) (name other : String) (v : Val)
    (hne : other ≠ name) : ((h.setProp r name v).get x).getOwn other = (h.get x).getOwn other := by
  by_cases hx : x = r
  · subst hx; rw [get_setProp_same, getOwn_set_other _ _ _ _ hne]
  · rw [get_setProp_other h r x name v hx]

/-- Reading the property just assigned. -/
theorem getProp_setProp_same (h : Heap) (r : Ref) (name : String) (v : Val) :
    (h.setProp r name v).getProp r name = v := by
  simp [Heap.getProp, get_setProp_same, getOwn_set_same]

/-- Reading another property of the object just assigned to. -/
theorem getProp_setProp_other_name (h : Heap) (r x : Ref) (name other : String) (v : Val)
    (hne : other ≠ name) : (h.setProp r name v).getProp x other = h.getProp x other := by
  simp only [Heap.getProp, proto_setProp, protoChain_setProp, getOwn_setProp_other_name _ _ _ _ _ _ hne]

/-- The fuel of `protoChain` suffices: in a heap whose objects are allocated
after their prototypes, more fuel gives the same chain. -/
theorem protoChain_complete (h : Heap)
    (hwf : ∀ x p, (h.get x).proto = some p → p < x) (fuel : Nat) (p : Ref) (k : Nat)
    (hp : p < fuel) : protoChain h (fuel + k) (some p) = protoChain h fuel (some p) := by
  induction fuel generalizing p with
  | zero => exact absurd hp (Nat.not_lt_zero _)
  | succ n ih =>
    have hk : n + 1 + k = (n + k) + 1 := by omega
    rw [hk]
    simp only [protoChain]
    cases hq : (h.get p).proto with
    | none => cases n <;> cases k <;> simp [protoChain]
    | some q =>
      have hqp : q < p := hwf p q hq
      rw [ih q (Nat.lt_of_lt_of_le hqp (Nat.lt_succ_iff.mp hp))]

theorem getProp_of_getOwn (h : Heap) (r : Ref) (name : String) (v : Val)
    (hv : (h.get r).getOwn name = some v) : h.getProp r name = v := by
  simp [Heap.getProp, hv]

theorem protoChain_congr (h h2 : Heap) (hp : ∀ x, (h2.get x).proto = (h.get x).proto)
    (fuel : Nat) (p : Option Ref) : protoChain h2 fuel p = protoChain h fuel p := by
  induction fuel generalizing p with
  | zero => simp [protoChain]
  | succ n ih =>
    cases p with
    | none => simp [protoChain]
    | some q => simp only [protoChain, hp, ih]

theorem getProp_congr (h h2 : Heap) (r : Ref) (name : String)
    (hp : ∀ x, (h2.get x).proto = (h.get x).proto)
    (ho : ∀ x, (h2.get x).getOwn name = (h.get x).getOwn name) :
    h2.getProp r name = h.getProp r name := by
  simp only [Heap.getProp, hp, protoChain_congr h h2 hp, ho]

theorem controllerWrapper_ne (c n : String) (v : Val) : Val.controllerWrapper c n v ≠ v := by
  intro h
  have h1 := congrArg sizeOf h
  simp at h1

theorem mem_uniq (l : List String) (m : String) : m ∈ uniq l ↔ m ∈ l := by
  induction l with
  | nil => simp [uniq]
  | cons x xs ih =>
    simp only [uniq, List.mem_cons, List.mem_filter, ih]
    by_cases hm : m = x <;> simp [hm]

theorem nodup_uniq (l : List String) : (uniq l).Nodup := by
  induction l with
  | nil => simp [uniq]
  | cons x xs ih =>
    simp only [uniq, List.nodup_cons, List.mem_filter]
    exact ⟨by simp, ih.filter _⟩

theorem mem_intersection (xs ys : List String) (m : String) :
    m ∈ intersection xs ys ↔ m ∈ xs ∧ m ∈ ys := by
  simp [intersection, mem_uniq, List.mem_filter]

/-- A name is collected by `getInstanceMethods` exactly when some object of the
prototype chain has it as an own function-valued property, `constructor` apart. -/
theorem mem_getInstanceMethods (h : Heap) (r : Ref) (m : String) :
    m ∈ getInstanceMethods h r ↔
      ∃ p ∈ protoChain h r (h.get r).proto, m ≠ "constructor" ∧ hasMethod (h.get p) m = true := by
  simp only [getInstanceMethods, List.mem_flatMap, methodsOf, List.mem_filter, List.mem_map,
    Bool.and_eq_true, bne_iff_ne, ne_eq]
  constructor
  · rintro ⟨p, hp, _, hc, hm⟩
    exact ⟨p, hp, hc, hm⟩
  · rintro ⟨p, hp, hc, hm⟩
    refine ⟨p, hp, ?_, hc, hm⟩
    simp only [hasMethod, Obj.getOwn] at hm
    cases hf : (h.get p).own.find? (fun q => q.1 == m) with
    | none => simp [hf] at hm
    | some q =>
      have h1 := List.mem_of_find?_eq_some hf
      have h2 := List.find?_some hf
      exact ⟨q, h1, by simpa using h2⟩

/-- The loop of `wrapResource` on an object, for names without repetition: it
ends normally; each name is now an own property holding the wrapper of what the
name read before; nothing else changed. -/
theorem wrapResourceLoop_spec (c : String) (r : Ref) (ms : List String) (hnd : ms.Nodup)
    (h : Heap) :
    ∃ h2, wrapResourceLoop c (.obj r) ms h = .ok h2
      ∧ (∀ m ∈ ms, (h2.get r).getOwn m = some (wrapControllerMethod c m (h.getProp r m)))
      ∧ (∀ m, m ∉ ms → ∀ x, (h2.get x).getOwn m = (h.get x).getOwn m)
      ∧ (∀ x, x ≠ r → h2.get x = h.get x)
      ∧ (∀ x, (h2.get x).proto = (h.get x).proto) := by
  induction ms generalizing h with
  | nil => exact ⟨h, rfl, by simp, fun _ _ _ => rfl, fun _ _ => rfl, fun _ => rfl⟩
  | cons m ms ih =>
    obtain ⟨hm, hnd1⟩ := List.nodup_cons.mp hnd
    obtain ⟨h2, hrun, hA, hB, hC, hD⟩ :=
      ih hnd1 (h.setProp r m (wrapControllerMethod c m (h.getProp r m)))
    refine ⟨h2, ?_, ?_, ?_, ?_, ?_⟩
    · simp only [wrapResourceLoop, wrapResourceStep, getMember, setMember, hrun]
    · intro m1 hm1
      rcases List.mem_cons.mp hm1 with heq | hin
      · subst heq
        rw [hB m1 hm r, get_setProp_same, getOwn_set_same]
      · have hne : m1 ≠ m := fun heq => hm (heq ▸ hin)
        rw [hA m1 hin, getProp_setProp_other_name _ _ _ _ _ _ hne]
    · intro m1 hm1 x
      have hne : m1 ≠ m := fun heq => hm1 (by simp [heq])
      have hnin : m1 ∉ ms := fun hin => hm1 (List.mem_cons_of_mem _ hin)
      rw [hB m1 hnin x, getOwn_setProp_other_name _ _ _ _ _ _ hne]
    · intro x hx
      rw [hC x hx, get_setProp_other _ _ _ _ _ hx]
    · intro x
      rw [hD x, proto_setProp]

/-! ## C6: wrapResource -/

/-- What `protoChain` lists is on the chain. -/
theorem onChain_of_mem_protoChain (h : Heap) (fuel : Nat) (start : Option Ref) (q : Ref)
    (hq : q ∈ protoChain h fuel start) : OnChain h start q := by
  induction fuel generalizing start with
  | zero => simp [protoChain] at hq
  | succ n ih =>
    cases start with
    | none => simp [protoChain] at hq
    | some p =>
      simp only [protoChain, List.mem_cons] at hq
      rcases hq with heq | hin
      · subst heq; exact OnChain.here _
      · exact OnChain.next _ _ (ih _ hin)

/-- With enough fuel `protoChain` lists the whole chain. -/
theorem mem_protoChain_of_onChain (h : Heap) (hwf : h.protoBefore) (start : Option Ref)
    (q : Ref) (hq : OnChain h start q) :
    ∀ fuel, (∀ s, start = some s → s < fuel) → q ∈ protoChain h fuel start := by
  induction hq with
  | here p =>
    intro fuel hlt
    have hp : p < fuel := hlt p rfl
    cases fuel with
    | zero => exact absurd hp (Nat.not_lt_zero _)
    | succ n => simp [protoChain]
  | next p q _ ih =>
    intro fuel hlt
    have hp : p < fuel := hlt p rfl
    cases fuel with
    | zero => exact absurd hp (Nat.not_lt_zero _)
    | succ n =>
      simp only [protoChain, List.mem_cons]
      refine Or.inr (ih n ?_)
      intro s hs
      exact Nat.lt_of_lt_of_le (hwf p s hs) (Nat.lt_succ_iff.mp hp)

/-- On a heap whose objects are allocated after their prototypes, the source's
`getInstanceMethods` finds, among names other than `constructor`, exactly the
methods the controller implements. -/
theorem mem_getInstanceMethods_iff_implements (h : Heap) (hwf : h.protoBefore) (r : Ref)
    (m : String) (hm : m ≠ "constructor") :
    m ∈ getInstanceMethods h r ↔ implementsMethod h r m := by
  rw [mem_getInstanceMethods]
  constructor
  · rintro ⟨p, hp, _, hmeth⟩
    simp only [hasMethod] at hmeth
    cases hv : (h.get p).getOwn m with
    | none => simp [hv] at hmeth
    | some v =>
      rw [hv] at hmeth
      exact ⟨p, v, onChain_of_mem_protoChain h r _ p hp, hv, hmeth⟩
  · rintro ⟨p, v, hp, hv, hfn⟩
    refine ⟨p, mem_protoChain_of_onChain h hwf _ p hp r (fun s hs => hwf r s hs), hm, ?_⟩
    simp only [hasMethod, hv, hfn]

/-- None of the seven actions is named `constructor`. -/
theorem ne_constructor_of_mem_resourceMethods (m : String)
    (hm : m ∈ ["index", "create", "store", "show", "edit", "update", "destroy"]) :
    m ≠ "constructor" := by
  intro heq
  subst heq
  revert hm
  decide

/-- C6: when the controller resolves to an object (on a heap whose objects are
allocated after their prototypes), `wrapResource` ends normally and, for every
name `m`: the instance's own property `m` differs from before if and only if
`m` is one of the seven actions index, create, store, show, edit, update,
destroy and the controller implements `m` as a method (some object of the
instance's prototype chain has an own function-valued property `m`); in that
case `m` now reads as the wrapper built by `wrapControllerMethod` around what
`m` read before; otherwise `m` reads as before. The instance's prototype and
every other object are as before. -/
theorem wrapResource_wraps_exactly_implemented_actions (env : Collab) (controllerName : String)
    (w w1 : World) (r : Ref)
    (hres : resolverResolve env controllerName w = (.ok (.obj r), w1))
    (hwf : w1.heap.protoBefore) :
    ∃ w2, wrapResource env controllerName w = (.ok .undefined, w2)
      ∧ (∀ m, ((w2.heap.get r).getOwn m ≠ (w1.heap.get r).getOwn m
          ↔ m ∈ ["index", "create", "store", "show", "edit", "update", "destroy"]
            ∧ implementsMethod w1.heap r m))
      ∧ (∀ m, m ∈ ["index", "create", "store", "show", "edit", "update", "destroy"]
            ∧ implementsMethod w1.heap r m →
          w2.heap.getProp r m = .controllerWrapper controllerName m (w1.heap.getProp r m))
      ∧ (∀ m, ¬ (m ∈ ["index", "create", "store", "show", "edit", "update", "destroy"]
            ∧ implementsMethod w1.heap r m) →
          w2.heap.getProp r m = w1.heap.getProp r m)
      ∧ (w2.heap.get r).proto = (w1.heap.get r).proto
      ∧ (∀ x, x ≠ r → w2.heap.get x = w1.heap.get x) := by
  have hiff : ∀ m, (m ∈ intersection resourceMethods (getInstanceMethods w1.heap r)
      ↔ m ∈ ["index", "create", "store", "show", "edit", "update", "destroy"]
        ∧ implementsMethod w1.heap r m) := by
    intro m
    rw [mem_intersection]
    constructor
    · rintro ⟨h1, h2⟩
      exact ⟨h1, (mem_getInstanceMethods_iff_implements w1.heap hwf r m
        (ne_constructor_of_mem_resourceMethods m h1)).mp h2⟩
    · rintro ⟨h1, h2⟩
      exact ⟨h1, (mem_getInstanceMethods_iff_implements w1.heap hwf r m
        (ne_constructor_of_mem_resourceMethods m h1)).mpr h2⟩
  obtain ⟨h2, hrun, hA, hB, hC, hD⟩ :=
    wrapResourceLoop_spec controllerName r
      (intersection resourceMethods (getInstanceMethods w1.heap r)) (nodup_uniq _) w1.heap
  refine ⟨iocBind (env.translate controllerName) (.constant (.obj r)) { w1 with heap := h2 },
    ?_, ?_, ?_, ?_, hD r, hC⟩
  · simp only [wrapResource, hres, getInstanceMethodsVal, hrun]
  · intro m
    constructor
    · intro hne
      by_contra hnot
      exact hne (hB m (fun hin => hnot ((hiff m).mp hin)) r)
    · intro hin
      have hown := hA m ((hiff m).mpr hin)
      show (h2.get r).getOwn m ≠ (w1.heap.get r).getOwn m
      rw [hown]
      intro heq
      have hp := getProp_of_getOwn w1.heap r m _ heq.symm
      exact controllerWrapper_ne controllerName m _ hp.symm
  · intro m hin
    exact getProp_of_getOwn h2 r m _ (hA m ((hiff m).mpr hin))
  · intro m hnot
    exact getProp_congr w1.heap h2 r m hD (hB m (fun hin => hnot ((hiff m).mp hin)))

/-- The sample controller heap, after the controller is resolved, has its
objects allocated after their prototypes. -/
theorem sample_controller_heap_protoBefore :
    (resolverResolve sampleCollab "UserController" controllerWorld).2.heap.protoBefore := by
  intro x p hx
  have h1 : (resolverResolve sampleCollab "UserController" controllerWorld).2.heap
      = (controllerHeap.alloc { own := [], proto := some 10 }).2 := rfl
  rw [h1] at hx
  by_cases h11 : x = 11
  · subst h11
    have hp : p = 10 := by simpa [Heap.alloc, Heap.get, controllerHeap] using hx.symm
    subst hp
    exact Nat.lt_succ_self 10
  · by_cases h10 : x = 10
    · subst h10
      have hp : p = 9 := by simpa [Heap.alloc, Heap.get, controllerHeap] using hx.symm
      subst hp
      exact Nat.lt_succ_self 9
    · by_cases h9 : x = 9
      · subst h9
        simp [Heap.alloc, Heap.get, controllerHeap] at hx
      · simp [Heap.alloc, Heap.get, controllerHeap, h11, h10, h9] at hx

/-- Instance of C6: a controller class with `index`, `show`, `helper`, a
non-function `edit`, and an inherited `store`: `index` and the inherited
`store` are wrapped, `helper` and `edit` read as before. -/
theorem wrapResource_wraps_exactly_implemented_actions_witness :
    ∃ w2, wrapResource sampleCollab "UserController" controllerWorld = (.ok .undefined, w2)
      ∧ w2.heap.getProp 11 "index" = .controllerWrapper "UserController" "index" (.native 1)
      ∧ w2.heap.getProp 11 "store" = .controllerWrapper "UserController" "store" (.native 3)
      ∧ w2.heap.getProp 11 "helper" = .native 4
      ∧ w2.heap.getProp 11 "edit" = .num 5 :=
  match wrapResource_wraps_exactly_implemented_actions sampleCollab "UserController"
    controllerWorld (resolverResolve sampleCollab "UserController" controllerWorld).2 11 rfl
    sample_controller_heap_protoBefore with
  | ⟨w2, hrun, _, hin, hout, _, _⟩ =>
    ⟨w2, hrun,
      hin "index" ⟨by decide, 10, .native 1, OnChain.here 10, rfl, rfl⟩,
      hin "store" ⟨by decide, 9, .native 3, OnChain.next 10 9 (OnChain.here 9), rfl, rfl⟩,
      hout "helper" (fun h => absurd h.1 (by decide)),
      hout "edit" (fun h =>
        match h.2 with
        | ⟨_, v, hc, hv, hfn⟩ => by
          cases hc with
          | here =>
            have : v = .num 5 := by
              have h5 : ((resolverResolve sampleCollab "UserController"
                controllerWorld).2.heap.get 10).getOwn "edit" = some (.num 5) := by decide
              rw [h5] at hv
              exact (Option.some.inj hv).symm
            subst this
            cases hfn
          | next _ _ hc2 =>
            cases hc2 with
            | here =>
              have h9 : ((resolverResolve sampleCollab "UserController"
                controllerWorld).2.heap.get 9).getOwn "edit" = none := by decide
              rw [h9] at hv
              cases hv
            | next _ _ hc3 => cases hc3)⟩

/-- The sample controller after `wrapResource`: the three implemented actions
are wrapped, `helper`, the non-function `edit` and the absent `update` are not. -/
theorem wrapResource_sample_values :
    ((wrapResource sampleCollab "UserController" controllerWorld).2.heap.getProp 11 "index"
        = .controllerWrapper "UserController" "index" (.native 1))
      ∧ ((wrapResource sampleCollab "UserController" controllerWorld).2.heap.getProp 11 "store"
        = .controllerWrapper "UserController" "store" (.native 3))
      ∧ ((wrapResource sampleCollab "UserController" controllerWorld).2.heap.getProp 11 "show"
        = .controllerWrapper "UserController" "show" (.native 2))
      ∧ ((wrapResource sampleCollab "UserController" controllerWorld).2.heap.getProp 11 "helper"
        = .native 4)
      ∧ ((wrapResource sampleCollab "UserController" controllerWorld).2.heap.getProp 11 "edit"
        = .num 5)
      ∧ ((wrapResource sampleCollab "UserController" controllerWorld).2.heap.getProp 11 "update"
        = .undefined) := by
  refine ⟨?_, ?_, ?_, ?_, ?_, ?_⟩ <;> decide

/-! ## C7: wrapRoute with a string handler -/

/-- C7 as stated fails: after `wrapRoute` with the handler
"UserController.index", the binding the container holds for the controller's
namespace is not a singleton binding: the provider registers it with `bind`. -/
theorem wrapRoute_binding_is_not_singleton :
    ¬ (∀ (env : Collab) (shim : Shim) (route : Val) (x y : String) (w : World),
        '.' ∉ x.data → '.' ∉ y.data →
        ∃ b, (wrapRoute env shim route (.str (x ++ "." ++ y)) w).2.bindings (env.translate x)
            = some b ∧ b.singleton = true) := by
  intro h
  obtain ⟨b, hb, hs⟩ := h sampleCollab sampleShim (.str "/users") "UserController" "index"
    controllerWorld (by decide) (by decide)
  have h1 : (wrapRoute sampleCollab sampleShim (.str "/users")
      (.str ("UserController" ++ "." ++ "index")) controllerWorld).2.bindings
        (sampleCollab.translate "UserController")
      = some { closure := .constant (.obj 11), singleton := false, cachedValue := .null } := by
    decide
  rw [h1] at hb
  cases hb
  cases hs

/-- C7, amended: for a string handler "X.Y" (no dot inside X or Y) whose
controller resolves to an object, `wrapRoute` returns the handler string
unchanged, so that the original registration receives it; `Y` on the instance
now reads as the wrapper built by `wrapControllerMethod` around what it read
before; the container holds for X's namespace a binding registered with `bind`
(not marked singleton) whose factory returns that instance; and a later
resolution of the namespace, by the resolver or by `use`, returns that same
instance and leaves the state as it is, so that every later one does. -/
theorem wrapRoute_string_handler (env : Collab) (shim : Shim) (originalFn : Behaviour)
    (this route verbs : Val) (x y : String) (w w1 : World) (r : Ref)
    (hx : '.' ∉ x.data) (hy : '.' ∉ y.data)
    (hres : resolverResolve env x w = (.ok (.obj r), w1)) :
    ∃ w2, wrapRoute env shim route (.str (x ++ "." ++ y)) w = (.ok (.str (x ++ "." ++ y)), w2)
      ∧ routeWrapper env shim originalFn this [route, .str (x ++ "." ++ y), verbs] w
          = originalFn this [route, .str (x ++ "." ++ y), verbs] w2
      ∧ w2.heap.getProp r y = wrapControllerMethod x y (w1.heap.getProp r y)
      ∧ w2.bindings (env.translate x)
          = some { closure := .constant (.obj r), singleton := false, cachedValue := .null }
      ∧ resolverResolve env x w2 = (.ok (.obj r), w2)
      ∧ iocUse env (env.translate x) w2 = (.ok (.obj r), w2) := by
  have hrun : wrapRoute env shim route (.str (x ++ "." ++ y)) w
      = (.ok (.str (x ++ "." ++ y)),
          iocBind (env.translate x) (.constant (.obj r))
            { w1 with heap := w1.heap.setProp r y (wrapControllerMethod x y (w1.heap.getProp r y)) }) := by
    simp only [wrapRoute, Val.isFunction, Bool.false_eq_true, if_false,
      jsSplit_dot_pair x y hx hy, partOr, List.getD_cons_zero, List.getD_cons_succ, hres,
      getMember, setMember]
  refine ⟨_, hrun, ?_, ?_, ?_, ?_, ?_⟩
  · simp only [routeWrapper, List.headD_cons, List.tail_cons, hrun]
  · exact getProp_setProp_same _ _ _ _
  · simp [iocBind]
  · simp [resolverResolve, iocBind, resolveBinding, runClosure]
  · simp [iocUse, iocBind, resolveBinding, runClosure]

/-- Instance of the amended C7: the handler "UserController.index" on the
sample controller class. -/
theorem wrapRoute_string_handler_witness :
    ∃ w2, wrapRoute sampleCollab sampleShim (.str "/users")
        (.str ("UserController" ++ "." ++ "index")) controllerWorld
          = (.ok (.str ("UserController" ++ "." ++ "index")), w2)
      ∧ w2.heap.getProp 11 "index" = .controllerWrapper "UserController" "index" (.native 1)
      ∧ resolverResolve sampleCollab "UserController" w2 = (.ok (.obj 11), w2) :=
  match wrapRoute_string_handler sampleCollab sampleShim (sampleRuntime.call (.native 1))
    (.obj 7) (.str "/users") .undefined "UserController" "index" controllerWorld
    (resolverResolve sampleCollab "UserController" controllerWorld).2 11
    (by decide) (by decide) rfl with
  | ⟨w2, h1, _, h3, _, h5, _⟩ => ⟨w2, h1, h3, h5⟩

/-! ## C8, C9: wrapMiddleware on a known binding -/

/-- C8, at the failing input: `Adonis/Middleware/Auth` is a transient binding
whose factory builds a fresh instance per resolution (objects 12 and 13 before
wrapping). After `wrapMiddleware` the binding is still transient and the
instance's `handle` is instrumented, but its factory returns the one instance
that was wrapped: resolving twice returns object 12 both times. -/
theorem wrapMiddleware_transient_shares_instance :
    (iocUse sampleCollab "Adonis/Middleware/Auth" middlewareWorld).1 = .ok (.obj 12)
      ∧ (iocUse sampleCollab "Adonis/Middleware/Auth"
          (iocUse sampleCollab "Adonis/Middleware/Auth" middlewareWorld).2).1 = .ok (.obj 13)
      ∧ (wrapMiddleware sampleCollab ["Adonis/Middleware/Auth"] middlewareWorld).1
          = .ok .undefined
      ∧ (wrapMiddleware sampleCollab ["Adonis/Middleware/Auth"] middlewareWorld).2.bindings
          "Adonis/Middleware/Auth"
          = some { closure := .constant (.obj 12), singleton := false, cachedValue := .null }
      ∧ (wrapMiddleware sampleCollab ["Adonis/Middleware/Auth"] middlewareWorld).2.heap.getProp
          12 "handle" = .middlewareWrapper "Auth" (.native 1)
      ∧ (iocUse sampleCollab "Adonis/Middleware/Auth"
          (wrapMiddleware sampleCollab ["Adonis/Middleware/Auth"] middlewareWorld).2).1
          = .ok (.obj 12)
      ∧ (iocUse sampleCollab "Adonis/Middleware/Auth"
          (iocUse sampleCollab "Adonis/Middleware/Auth"
            (wrapMiddleware sampleCollab ["Adonis/Middleware/Auth"] middlewareWorld).2).2).1
          = .ok (.obj 12) := by
  refine ⟨rfl, rfl, rfl, ?_, ?_, rfl, rfl⟩ <;> decide

/-- What `wrapMiddleware` does for a singleton binding whose factory returns an
object: the factory is called (the read `binding.cacheValue` is `undefined`),
the namespace is bound as a singleton again, to what the factory returned; that
object's `handle` reads as the wrapper built by `wrapMiddlewareHandler` around
what it read before; and resolving the namespace twice returns that object
both times. -/
theorem wrapMiddleware_singleton_rebinds (env : Collab) (ns : String) (w w1 : World)
    (b : Binding) (r : Ref)
    (hb : w.bindings ns = some b) (hs : b.singleton = true)
    (hinst : runClosure env b.closure w = (.ok (.obj r), w1)) :
    ∃ w2 w3, wrapMiddleware env [ns] w = (.ok .undefined, w2)
      ∧ w2.bindings ns
          = some { closure := .constant (.obj r), singleton := true, cachedValue := .null }
      ∧ w2.heap.getProp r "handle" = wrapMiddlewareHandler ns (w1.heap.getProp r "handle")
      ∧ iocUse env ns w2 = (.ok (.obj r), w3)
      ∧ iocUse env ns w3 = (.ok (.obj r), w3)
      ∧ w3.heap = w2.heap := by
  have hstep : wrapMiddlewareStep env w.bindings ns w
      = (.ok .undefined, iocSingleton ns (.constant (.obj r))
          { w1 with heap := (w1.heap.setProp r "handle"
              (wrapMiddlewareHandler ns (w1.heap.getProp r "handle"))) }) := by
    simp only [wrapMiddlewareStep, hb, hs, if_true, Binding.cacheValue, Val.truthy,
      Bool.false_eq_true, if_false, hinst, getMember, setMember]
  have huse : iocUse env ns (iocSingleton ns (.constant (.obj r))
        { w1 with heap := (w1.heap.setProp r "handle"
            (wrapMiddlewareHandler ns (w1.heap.getProp r "handle"))) })
      = (.ok (.obj r),
          { heap := w1.heap.setProp r "handle"
              (wrapMiddlewareHandler ns (w1.heap.getProp r "handle")),
            bindings := fun n =>
              if n = ns then
                some { closure := .constant (.obj r), singleton := true, cachedValue := .obj r }
              else
                (iocSingleton ns (.constant (.obj r))
                  { w1 with heap := (w1.heap.setProp r "handle"
                      (wrapMiddlewareHandler ns (w1.heap.getProp r "handle"))) }).bindings n }) := by
    simp [iocUse, iocSingleton, resolveBinding, Val.truthy, runClosure]
  refine ⟨_, _, ?_, ?_, ?_, huse, ?_, rfl⟩
  · simp only [wrapMiddleware, wrapMiddlewareLoop, hstep]
  · simp [iocSingleton]
  · exact getProp_setProp_same _ _ _ _
  · simp [iocUse, resolveBinding, Val.truthy]

/-- C9, at the failing input: `Adonis/Middleware/Shield` is a singleton binding
that was resolved before, so the container holds its instance, object 11, in
`cachedValue`, and resolving the namespace returns object 11. The source reads
`binding.cacheValue`, which is `undefined`, so `wrapMiddleware` calls the
factory again: the namespace is re-bound, as a singleton, to the new object 12,
whose `handle` is instrumented; the instance cached before is no longer what
the namespace yields, and its `handle` is not instrumented. -/
theorem wrapMiddleware_singleton_ignores_cached_instance :
    (iocUse sampleCollab "Adonis/Middleware/Shield" middlewareWorld).1 = .ok (.obj 11)
      ∧ (wrapMiddleware sampleCollab ["Adonis/Middleware/Shield"] middlewareWorld).1
          = .ok .undefined
      ∧ (wrapMiddleware sampleCollab ["Adonis/Middleware/Shield"] middlewareWorld).2.bindings
          "Adonis/Middleware/Shield"
          = some { closure := .constant (.obj 12), singleton := true, cachedValue := .null }
      ∧ (iocUse sampleCollab "Adonis/Middleware/Shield"
          (wrapMiddleware sampleCollab ["Adonis/Middleware/Shield"] middlewareWorld).2).1
          = .ok (.obj 12)
      ∧ (iocUse sampleCollab "Adonis/Middleware/Shield"
          (iocUse sampleCollab "Adonis/Middleware/Shield"
            (wrapMiddleware sampleCollab ["Adonis/Middleware/Shield"] middlewareWorld).2).2).1
          = .ok (.obj 12)
      ∧ (wrapMiddleware sampleCollab ["Adonis/Middleware/Shield"] middlewareWorld).2.heap.getProp
          12 "handle" = .middlewareWrapper "Shield" (.native 1)
      ∧ (wrapMiddleware sampleCollab ["Adonis/Middleware/Shield"] middlewareWorld).2.heap.getProp
          11 "handle" = .native 1 := by
  refine ⟨rfl, rfl, ?_, rfl, rfl, ?_, ?_⟩ <;> decide

end NewRelicProvider
